import Mathlib

/-!
Verification of the uww-net wallpaper pipeline.

Shallow embedding of the core modules of the repository:
`image_utils.py` (ratio simplification, centered aspect crop, brightness
check, multi-monitor stitching), `download_history.py` (history load and
append), and `wallpaper_scraper.py` (the bounded-retry unique-candidate
collection loop).

External effects (HTTP fetches, the Selenium gallery session, the file
system, PIL image decoding, `random.sample`) are modelled as explicit
environment records and oracle functions. Python `int` is `Int`; Python
float arithmetic on ratios is modelled exactly over `ℚ`; Python `//` on
ints is `Int.fdiv`; the CPython builtin `round` (round half to even) is
`pyRound` below. The float field `aspect_ratio_float` of candidate
records is not modelled (pure IEEE-754 presentation data, used by no
claim).
-/

namespace UwwNet

/-- Model of the CPython builtin `round` restricted to exact rationals:
round half to even. `Rat.floor` is used rather than `Int.floor` so that
the definition evaluates inside the kernel. -/
def pyRound (q : ℚ) : ℤ :=
  if q - q.floor < 1/2 then q.floor
  else if 1/2 < q - q.floor then q.floor + 1
  else if q.floor % 2 = 0 then q.floor else q.floor + 1

theorem ratFloor_eq_floor (q : ℚ) : q.floor = ⌊q⌋ := by
  rw [Rat.floor_def, Rat.floor_def']

/-- Embeds `image_utils.simplify_ratio` (the body of
`monitors._simplify_ratio` is textually identical). The guard
`if not width or not height: return None` treats both Python `None` and
`0` as falsy; `f"{width // g}:{height // g}"` is floor division by
`g = math.gcd(width, height)`. -/
def simplify_ratio : Option ℤ → Option ℤ → Option String
  | some w, some h =>
    if w = 0 ∨ h = 0 then none
    else
      let g : ℤ := Int.gcd w h
      some (toString (w.fdiv g) ++ ":" ++ toString (h.fdiv g))
  | _, _ => none

/-- Embeds `monitors._simplify_ratio`, whose body is the same as
`image_utils.simplify_ratio`. -/
def monitors_simplify_ratio : Option ℤ → Option ℤ → Option String
  | some w, some h =>
    if w = 0 ∨ h = 0 then none
    else
      let g : ℤ := Int.gcd w h
      some (toString (w.fdiv g) ++ ":" ++ toString (h.fdiv g))
  | _, _ => none

/-! ### Centered aspect crop (`image_utils.crop_image_to_aspect`) -/

/-- Crop rectangle `(left, top, right, bottom)` as passed to `img.crop`. -/
structure CropRect where
  left : ℤ
  top : ℤ
  right : ℤ
  bottom : ℤ
deriving DecidableEq

/-- Embeds the geometry of `image_utils.crop_image_to_aspect` for an image
of size `w × h`: the crop rectangle it hands to `img.crop`, or `none` on
every path where no crop rectangle is computed (non-positive aspect
components, which raise `ValueError` and are caught by the outer handler
returning `None`; zero `current_ratio`; and the already-conforming branch,
which returns the image verbatim). The float arithmetic of the source is
modelled exactly over `ℚ`. -/
def crop_image_to_aspect (w h aspect_w aspect_h : ℤ) : Option CropRect :=
  if aspect_w ≤ 0 ∨ aspect_h ≤ 0 then none
  else
    let target_ratio : ℚ := (aspect_w : ℚ) / (aspect_h : ℚ)
    let current_ratio : ℚ := if h ≠ 0 then (w : ℚ) / (h : ℚ) else 0
    if current_ratio = 0 then none
    else if |current_ratio - target_ratio| < 1/10000 then none
    else if target_ratio < current_ratio then
      let new_w : ℤ := pyRound ((h : ℚ) * target_ratio)
      let left : ℤ := (w - new_w).fdiv 2
      some ⟨left, 0, left + new_w, 0 + h⟩
    else
      let new_h : ℤ := pyRound ((w : ℚ) / target_ratio)
      let top : ℤ := (h - new_h).fdiv 2
      some ⟨0, top, 0 + w, top + new_h⟩

/-! ### Brightness check (`image_utils.is_image_too_bright`) -/

/-- Embeds `avg_brightness = sum(pixels) / len(pixels) if pixels else 0`. -/
def meanBrightness (pixels : List ℕ) : ℚ :=
  if pixels.isEmpty then 0 else (pixels.sum : ℚ) / (pixels.length : ℚ)

/-- Embeds the sampling step
`if sample_size > 0 and len(pixels) > sample_size: pixels = random.sample(pixels, sample_size)`.
The call to `random.sample` is an external effect, modelled by the oracle
`sampler`. -/
def samplePixels (sample_size : ℤ) (sampler : List ℕ → List ℕ) (pixels : List ℕ) : List ℕ :=
  if 0 < sample_size ∧ sample_size < (pixels.length : ℤ) then sampler pixels else pixels

/-- What `random.sample(pixels, k)` guarantees when it is actually invoked
(`k < len(pixels)` here): it returns exactly `k` elements, all drawn from
the input list. -/
def SamplerOK (sample_size : ℤ) (sampler : List ℕ → List ℕ) : Prop :=
  ∀ l : List ℕ, sample_size < (l.length : ℤ) →
    ((sampler l).length : ℤ) = sample_size ∧ ∀ x ∈ sampler l, x ∈ l

/-- Embeds `image_utils.is_image_too_bright`. The image is its list of
grayscale pixel values (the data after conversion to mode L); `none`
models every
failure to open or decode the image, which the source catches and maps to
`False` (fail-open). -/
def is_image_too_bright (img : Option (List ℕ)) (brightness_threshold : ℚ)
    (sample_size : ℤ) (sampler : List ℕ → List ℕ) : Bool :=
  match img with
  | none => false
  | some pixels =>
    let sampled := samplePixels sample_size sampler pixels
    let avg_brightness := meanBrightness sampled
    decide (brightness_threshold ≤ avg_brightness)

/-! ### Monitor model and stitching (`monitors.MonitorInfo`,
`image_utils.stitch_images_for_monitors`) -/

/-- Embeds the `monitors.MonitorInfo` dataclass. -/
structure MonitorInfo where
  index : ℤ
  name : String
  width : ℤ
  height : ℤ
  x : ℤ
  y : ℤ
  is_primary : Bool
deriving DecidableEq

/-- One `stitched_image.paste(img, (x_pos, y_pos))` call: the pasted image
has the monitor dimensions (`resized` records whether `img.resize` ran
because the source size differed), at canvas offset `(x, y)`. -/
structure PasteOp where
  width : ℤ
  height : ℤ
  resized : Bool
  x : ℤ
  y : ℤ
deriving DecidableEq

/-- Observable outcome of `stitch_images_for_monitors`: the returned value
(`result`, the output path on success and `None` on failure), the
dimensions passed to `Image.new` if allocation was reached (`canvas`), the
fill color passed to `Image.new` (`background`), the paste calls performed
(`pastes`), and whether `stitched_image.save` was reached
(`saveAttempted`). -/
structure StitchOutcome where
  result : Option String
  canvas : Option (ℤ × ℤ)
  background : Option (ℤ × ℤ × ℤ)
  pastes : List PasteOp
  saveAttempted : Bool
deriving DecidableEq

/-- Embeds the per-monitor loop of `stitch_images_for_monitors` over
`zip(image_paths, monitors)`. An image is its pixel size `some (w, h)`, or
`none` when `Image.open` (or any per-image processing step) raises, which
the source catches and turns into an immediate `return None`. The `Bool`
result records whether the loop completed. -/
def pasteLoop (min_x min_y : ℤ) :
    List (Option (ℤ × ℤ)) → List MonitorInfo → List PasteOp → List PasteOp × Bool
  | [], _, acc => (acc, true)
  | _, [], acc => (acc, true)
  | none :: _, _ :: _, acc => (acc, false)
  | some sz :: imgs, m :: ms, acc =>
    pasteLoop min_x min_y imgs ms
      (acc ++ [⟨m.width, m.height, decide (sz ≠ (m.width, m.height)), m.x - min_x, m.y - min_y⟩])

/-- Embeds `image_utils.stitch_images_for_monitors`. `image_paths` carries
each image as its pixel size, `none` for an unreadable file; `saveOk`
models whether the final `stitched_image.save` call succeeds (its failure
is caught by the outer handler, which returns `None`). The third `match`
arm is unreachable because the length guard has already passed. -/
def stitch_images_for_monitors (image_paths : List (Option (ℤ × ℤ)))
    (monitors : List MonitorInfo) (output_path : String) (saveOk : Bool) : StitchOutcome :=
  if image_paths.length ≠ monitors.length then ⟨none, none, none, [], false⟩
  else
    match image_paths, monitors with
    | [], _ => ⟨none, none, none, [], false⟩
    | _ :: _, [] => ⟨none, none, none, [], false⟩
    | _ :: _, m0 :: ms =>
      let min_x := (ms.map (fun m => m.x)).foldl min m0.x
      let min_y := (ms.map (fun m => m.y)).foldl min m0.y
      let max_x := (ms.map (fun m => m.x + m.width)).foldl max (m0.x + m0.width)
      let max_y := (ms.map (fun m => m.y + m.height)).foldl max (m0.y + m0.height)
      let total_width := max_x - min_x
      let total_height := max_y - min_y
      let po := pasteLoop min_x min_y image_paths (m0 :: ms) []
      if po.2 then
        { result := if saveOk then some output_path else none
          canvas := some (total_width, total_height)
          background := some (0, 0, 0)
          pastes := po.1
          saveAttempted := true }
      else
        { result := none
          canvas := some (total_width, total_height)
          background := some (0, 0, 0)
          pastes := po.1
          saveAttempted := false }

/-! ### History store (`download_history.py`) -/

/-- File-system oracle for one history call: `readLines` is the line
sequence the file iterator yields (`none` when `open` or reading raises),
`mkdirOk` is whether `os.makedirs` succeeds, `writeOk` whether opening for
append and writing succeed. -/
structure FSEnv where
  readLines : Option (List String)
  mkdirOk : Bool
  writeOk : Bool

/-- Embeds `download_history.load_history`: the set comprehension
`{line.strip() for line in f if line.strip()}`, with the whole body
wrapped in `try/except` returning the empty set on any failure. -/
def load_history (fs : FSEnv) : Finset String :=
  match fs.readLines with
  | none => ∅
  | some lines => ((lines.map String.trim).filter (fun s => s ≠ "")).toFinset

/-- Embeds `download_history.append_history` as a fallible computation.
The `os.makedirs(...)` call is executed before (outside) the
`try/except`, so its failure propagates as an exception (`Except.error`);
the writes inside the `try` are swallowed by `except Exception: pass`, so
once `makedirs` returns, the function returns normally whether or not the
write succeeds (`writeOk` and `urls` cannot affect the returned value;
the file contents are outside this model). -/
def append_history (fs : FSEnv) (urls : List String) : Except Unit Unit :=
  if fs.mkdirOk then Except.ok () else Except.error ()

/-! ### Unique candidate collection (`wallpaper_scraper.get_unique_wallpapers`) -/

/-- Embeds the wallpaper dict built by the scraper (minus the float
presentation field `aspect_ratio_float`). -/
structure Candidate where
  image_url : String
  width : Option ℤ
  height : Option ℤ
  aspect_ratio : Option String
deriving DecidableEq

/-- Oracle for the external gallery session and dimension fetches during
one `get_unique_wallpapers` call. `initialLoadOk` models the initial
`WebDriverWait` on the gallery; `shuffleOk k` whether the shuffle click of
iteration `k` succeeds; `listing k` the result of `find_elements` in
iteration `k` (`none` when it raises; each element is the `href`
attribute, where `none` covers both a missing attribute and a per-element
extraction exception, both of which skip the element); `dims url` the
result of `fetch_image_dimensions`, which returns `(None, None)` on any
fetch failure. -/
structure GalleryEnv where
  initialLoadOk : Bool
  shuffleOk : ℕ → Bool
  listing : ℕ → Option (List (Option String))
  dims : String → Option ℤ × Option ℤ

/-- Builds the collected dict for one new URL: fetch dimensions, derive
the ratio. -/
def mkCandidate (dims : String → Option ℤ × Option ℤ) (image_url : String) : Candidate :=
  let wh := dims image_url
  { image_url := image_url, width := wh.1, height := wh.2
    aspect_ratio := simplify_ratio wh.1 wh.2 }

/-- Embeds the inner `for el in wallpaper_elements` loop: stop when
`count` is reached; skip falsy hrefs (missing or empty), URLs in
`skip_urls`, and URLs already collected; otherwise append the new
candidate. -/
def processListing (dims : String → Option ℤ × Option ℤ) (count : ℕ) (skip_urls : List String) :
    List (Option String) → List Candidate → List Candidate
  | [], collected => collected
  | el :: rest, collected =>
    if count ≤ collected.length then collected
    else
      match el with
      | none => processListing dims count skip_urls rest collected
      | some image_url =>
        if image_url = "" ∨ image_url ∈ skip_urls ∨ ∃ r ∈ collected, r.image_url = image_url then
          processListing dims count skip_urls rest collected
        else
          processListing dims count skip_urls rest (collected ++ [mkCandidate dims image_url])

/-- Embeds the `while len(collected) < count and attempts < max_shuffles`
loop. `fuel = max_shuffles - attempts` is the number of remaining allowed
iterations, so `fuel > 0` is exactly `attempts < max_shuffles`. A failed
shuffle click breaks before `attempts += 1`; a failed `find_elements`
breaks after it. Returns the collected list and the final `attempts`
counter. -/
def collectLoop (env : GalleryEnv) (count : ℕ) (skip_urls : List String) :
    ℕ → ℕ → List Candidate → List Candidate × ℕ
  | attempts, 0, collected => (collected, attempts)
  | attempts, fuel + 1, collected =>
    if collected.length < count then
      if env.shuffleOk attempts then
        match env.listing attempts with
        | none => (collected, attempts + 1)
        | some elements =>
          collectLoop env count skip_urls (attempts + 1) fuel
            (processListing env.dims count skip_urls elements collected)
      else (collected, attempts)
    else (collected, attempts)

/-- Embeds `wallpaper_scraper.get_unique_wallpapers`. The guard
`if count <= 0: return []` runs before `_init_driver()` and before any
gallery interaction, which is why the result for `count ≤ 0` does not
depend on `env` at all. -/
def get_unique_wallpapers (env : GalleryEnv) (count : ℤ) (skip_urls : List String)
    (max_shuffles : ℕ) : List Candidate :=
  if count ≤ 0 then []
  else if ¬ env.initialLoadOk then []
  else (collectLoop env count.toNat skip_urls 0 max_shuffles []).1

/-- Final value of the `attempts` counter of the same call (the number of
successful shuffle presses performed by the loop). -/
def get_unique_wallpapers_attempts (env : GalleryEnv) (count : ℤ) (skip_urls : List String)
    (max_shuffles : ℕ) : ℕ :=
  if count ≤ 0 then 0
  else if ¬ env.initialLoadOk then 0
  else (collectLoop env count.toNat skip_urls 0 max_shuffles []).2

/-! ### Single-shuffle collection (`wallpaper_scraper.get_wallpapers_after_shuffle`) -/

/-- Wallpaper dict of `get_wallpapers_after_shuffle`; unlike the unique
collector this function does not test the `href` for truthiness, so
`image_url` can be `None`. -/
structure ShuffleCandidate where
  image_url : Option String
  width : Option ℤ
  height : Option ℤ
  aspect_ratio : Option String
deriving DecidableEq

/-- Oracle for one `get_wallpapers_after_shuffle` call: `setupOk` covers
the navigation wait, shuffle-button wait and click block; `elements` is
the `find_elements` result (`none` when it raises); each element is
`none` when the per-element extraction raises, else `some href` with the
possibly missing attribute inside. -/
structure ShuffleEnv where
  setupOk : Bool
  elements : Option (List (Option (Option String)))
  dims : String → Option ℤ × Option ℤ

/-- The `fetch_image_dimensions` call of the single-shuffle path receives
the raw `href`; on `None` the internal `requests.get(None)` raises, is
caught, and `(None, None)` is returned. -/
def fetchDims (dims : String → Option ℤ × Option ℤ) : Option String → Option ℤ × Option ℤ
  | none => (none, none)
  | some url => dims url

/-- Embeds `wallpaper_scraper.get_wallpapers_after_shuffle`. -/
def get_wallpapers_after_shuffle (env : ShuffleEnv) (count : ℤ) : List ShuffleCandidate :=
  if count ≤ 0 then []
  else if ¬ env.setupOk then []
  else
    match env.elements with
    | none => []
    | some els =>
      if els.isEmpty then []
      else
        (els.take count.toNat).foldl
          (fun results el =>
            match el with
            | none => results
            | some href =>
              let wh := fetchDims env.dims href
              results ++ [{ image_url := href, width := wh.1, height := wh.2
                            aspect_ratio := simplify_ratio wh.1 wh.2 }]) []

/-! ## Helper lemmas about the collection loop -/

theorem collectLoop_attempts_le (env : GalleryEnv) (count : ℕ) (skip_urls : List String) :
    ∀ (fuel attempts : ℕ) (c : List Candidate),
      (collectLoop env count skip_urls attempts fuel c).2 ≤ attempts + fuel := by
  intro fuel
  induction fuel with
  | zero => intro a c; simp [collectLoop]
  | succ n ih =>
    intro a c
    rw [collectLoop]
    by_cases h1 : c.length < count
    · by_cases h2 : env.shuffleOk a
      · cases hl : env.listing a with
        | none => simp [h1, h2, hl]
        | some els =>
          simp only [h1, if_true, h2, hl, if_pos]
          have := ih (a + 1) (processListing env.dims count skip_urls els c)
          omega
      · simp [h1, h2]
    · simp [h1]

/-! ## C7: the collection loop terminates within the shuffle budget -/

/-- Claim C7: for every count, skip-set and environment (sequence of
responses of the gallery session and dimension fetches), the collection
loop of `get_unique_wallpapers` terminates — the embedding is a total
function by construction — and the final `attempts` counter, i.e. the
number of shuffle presses performed, never exceeds `max_shuffles`. -/
theorem claim7_attempts_bounded (env : GalleryEnv) (count : ℤ) (skip_urls : List String)
    (max_shuffles : ℕ) :
    get_unique_wallpapers_attempts env count skip_urls max_shuffles ≤ max_shuffles := by
  rw [get_unique_wallpapers_attempts]
  split_ifs
  all_goals
    first
    | exact Nat.zero_le _
    | exact le_trans (collectLoop_attempts_le env count.toNat skip_urls max_shuffles 0 [])
        (by omega)

/-! ## C10: non-positive count short-circuits -/

/-- Claim C10: for `count ≤ 0` both collectors return `[]` immediately.
The result is independent of the whole environment (quantified over every
`env`), which captures that no browser session is created and no gallery
operation is invoked: in the source the `count <= 0` guard returns before
`_init_driver()` runs. -/
theorem claim10_nonpositive_count (count : ℤ) (hc : count ≤ 0) :
    (∀ (env : GalleryEnv) (skip_urls : List String) (max_shuffles : ℕ),
        get_unique_wallpapers env count skip_urls max_shuffles = []) ∧
    (∀ env2 : ShuffleEnv, get_wallpapers_after_shuffle env2 count = []) := by
  constructor
  · intro env skip_urls max_shuffles
    rw [get_unique_wallpapers, if_pos hc]
  · intro env2
    rw [get_wallpapers_after_shuffle, if_pos hc]

/-- Witness for C10 at `count = 0` with concrete environments. -/
theorem claim10_witness :
    get_unique_wallpapers ⟨true, fun _ => true, fun _ => some [], fun _ => (none, none)⟩
        0 ["u"] 25 = [] ∧
    get_wallpapers_after_shuffle ⟨true, some [], fun _ => (none, none)⟩ 0 = [] :=
  ⟨(claim10_nonpositive_count 0 (by decide)).1 _ _ _,
   (claim10_nonpositive_count 0 (by decide)).2 _⟩

/-! ## C3: aspect-ratio simplification values -/

/-- Claim C3 is false as stated: `simplify_ratio(2560, 1080)` is
`"64:27"` (the gcd is 40), not `"64:45"` as the spec asserts. -/
theorem claim3_ratio_counterexample :
    simplify_ratio (some 2560) (some 1080) ≠ some "64:45" := by decide

/-- Claim C3 (amended): `simplify_ratio(1920, 1080) = "16:9"`,
`simplify_ratio(2560, 1080) = "64:27"`, and `simplify_ratio(w, 0)` is
absent for every `w`; likewise for the textually identical
`monitors._simplify_ratio`. -/
theorem claim3_ratio_values :
    simplify_ratio (some 1920) (some 1080) = some "16:9" ∧
    simplify_ratio (some 2560) (some 1080) = some "64:27" ∧
    (∀ w : Option ℤ, simplify_ratio w (some 0) = none) ∧
    monitors_simplify_ratio (some 1920) (some 1080) = some "16:9" ∧
    monitors_simplify_ratio (some 2560) (some 1080) = some "64:27" ∧
    (∀ w : Option ℤ, monitors_simplify_ratio w (some 0) = none) := by
  refine ⟨by decide, by decide, ?_, by decide, by decide, ?_⟩ <;>
    intro w <;> cases w <;> simp [simplify_ratio, monitors_simplify_ratio]

/-! ## C4: history persistence error handling -/

/-- Claim C4 is false as stated: `append_history` does raise when the
parent directory cannot be created, because the `os.makedirs` call runs
before the `try/except` block. Concrete input: any path whose parent
directory creation fails (modelled by `mkdirOk = false`) and urls
`["u1"]`. -/
theorem claim4_history_counterexample :
    append_history ⟨some [], false, true⟩ ["u1"] = Except.error () := rfl

/-- Claim C4 (amended): `load_history` always returns a set and returns
the empty set on any read error; `append_history` swallows write errors
and returns normally whenever the parent directory can be created, but
when `os.makedirs` fails the exception propagates to the caller. -/
theorem claim4_history_error_handling (fs : FSEnv) (urls : List String) :
    (fs.readLines = none → load_history fs = ∅) ∧
    (fs.mkdirOk = true → append_history fs urls = Except.ok ()) ∧
    (fs.mkdirOk = false → append_history fs urls = Except.error ()) := by
  refine ⟨?_, ?_, ?_⟩ <;> intro h <;> simp [load_history, append_history, h]

/-- Witness for the amended C4 at concrete file-system environments. -/
theorem claim4_history_witness :
    load_history ⟨none, true, true⟩ = ∅ ∧
    append_history ⟨some ["u"], true, false⟩ ["x"] = Except.ok () ∧
    append_history ⟨some [], false, true⟩ ["x"] = Except.error () :=
  ⟨(claim4_history_error_handling ⟨none, true, true⟩ []).1 rfl,
   (claim4_history_error_handling ⟨some ["u"], true, false⟩ ["x"]).2.1 rfl,
   (claim4_history_error_handling ⟨some [], false, true⟩ ["x"]).2.2 rfl⟩

/-! ## C1: soundness of the unique-candidate collection -/

theorem processListing_inv (dims : String → Option ℤ × Option ℤ) (count : ℕ)
    (skip_urls : List String) :
    ∀ (els : List (Option String)) (c : List Candidate),
      c.length ≤ count →
      ((c.map fun r => r.image_url).Nodup ∧ ∀ r ∈ c, r.image_url ∉ skip_urls) →
      (processListing dims count skip_urls els c).length ≤ count ∧
      ((processListing dims count skip_urls els c).map fun r => r.image_url).Nodup ∧
      ∀ r ∈ processListing dims count skip_urls els c, r.image_url ∉ skip_urls := by
  intro els
  induction els with
  | nil => intro c h1 h2; rw [processListing]; exact ⟨h1, h2⟩
  | cons el rest ih =>
    intro c h1 h2
    cases el with
    | none =>
      rw [processListing]
      by_cases hc : count ≤ c.length
      · rw [if_pos hc]; exact ⟨h1, h2⟩
      · rw [if_neg hc]; exact ih c h1 h2
    | some image_url =>
      rw [processListing]
      by_cases hc : count ≤ c.length
      · rw [if_pos hc]; exact ⟨h1, h2⟩
      · rw [if_neg hc]
        by_cases hskip :
            image_url = "" ∨ image_url ∈ skip_urls ∨ ∃ r ∈ c, r.image_url = image_url
        · rw [if_pos hskip]; exact ih c h1 h2
        · rw [if_neg hskip]
          push_neg at hskip
          obtain ⟨-, hnotskip, hnodup⟩ := hskip
          refine ih (c ++ [mkCandidate dims image_url]) ?_ ⟨?_, ?_⟩
          · simp only [List.length_append, List.length_singleton]; omega
          · simp only [List.map_append, List.map_cons, List.map_nil]
            rw [List.nodup_append]
            refine ⟨h2.1, List.nodup_singleton _, ?_⟩
            intro a ha hb
            simp only [List.mem_singleton] at hb
            simp only [List.mem_map] at ha
            obtain ⟨r, hr, hru⟩ := ha
            exact hnodup r hr (by rw [hru, hb, mkCandidate])
          · intro r hr
            rcases List.mem_append.mp hr with hr | hr
            · exact h2.2 r hr
            · simp only [List.mem_singleton] at hr
              rw [hr, mkCandidate]
              exact hnotskip

theorem collectLoop_inv (env : GalleryEnv) (count : ℕ) (skip_urls : List String) :
    ∀ (fuel attempts : ℕ) (c : List Candidate),
      c.length ≤ count →
      ((c.map fun r => r.image_url).Nodup ∧ ∀ r ∈ c, r.image_url ∉ skip_urls) →
      ((collectLoop env count skip_urls attempts fuel c).1).length ≤ count ∧
      (((collectLoop env count skip_urls attempts fuel c).1).map fun r => r.image_url).Nodup ∧
      ∀ r ∈ (collectLoop env count skip_urls attempts fuel c).1, r.image_url ∉ skip_urls := by
  intro fuel
  induction fuel with
  | zero => intro a c h1 h2; rw [collectLoop]; exact ⟨h1, h2⟩
  | succ n ih =>
    intro a c h1 h2
    rw [collectLoop]
    by_cases hl : c.length < count
    · rw [if_pos hl]
      by_cases hsh : env.shuffleOk a
      · rw [if_pos hsh]
        cases hlst : env.listing a with
        | none => exact ⟨h1, h2⟩
        | some els =>
          obtain ⟨g1, g2, g3⟩ := processListing_inv env.dims count skip_urls els c h1 h2
          exact ih (a + 1) _ g1 ⟨g2, g3⟩
      · rw [if_neg hsh]; exact ⟨h1, h2⟩
    · rw [if_neg hl]; exact ⟨h1, h2⟩

/-- Claim C1: for every `count > 0` and skip-set, against every gallery
environment, `get_unique_wallpapers` returns at most `count` candidates,
with pairwise distinct `image_url` values, none of which lies in the
skip-set. -/
theorem claim1_unique_collection (env : GalleryEnv) (count : ℤ) (skip_urls : List String)
    (max_shuffles : ℕ) (hc : 0 < count) :
    (((get_unique_wallpapers env count skip_urls max_shuffles).length : ℤ) ≤ count ∧
     ((get_unique_wallpapers env count skip_urls max_shuffles).map
        fun r => r.image_url).Nodup ∧
     ∀ r ∈ get_unique_wallpapers env count skip_urls max_shuffles,
       r.image_url ∉ skip_urls) := by
  rw [get_unique_wallpapers, if_neg (not_le.mpr hc)]
  by_cases hload : env.initialLoadOk
  · rw [if_neg (by simpa using hload)]
    obtain ⟨g1, g2, g3⟩ :=
      collectLoop_inv env count.toNat skip_urls max_shuffles 0 [] (by simp) (by simp)
    refine ⟨?_, g2, g3⟩
    calc (((collectLoop env count.toNat skip_urls 0 max_shuffles []).1).length : ℤ)
        ≤ (count.toNat : ℤ) := by exact_mod_cast g1
      _ = count := Int.toNat_of_nonneg hc.le
  · rw [if_pos (by simpa using hload)]
    exact ⟨by simpa using hc.le, by simp, by simp⟩

/-- Witness for C1 on a concrete four-link listing, `count = 2`, skip-set
containing one of the listed URLs. -/
theorem claim1_unique_collection_witness :
    (0 : ℤ) < 2 ∧
    (((get_unique_wallpapers
         ⟨true, fun _ => true,
          fun k => if k = 0 then some [some "a", some "b", some "a", some "c"] else some [],
          fun _ => (some 3440, some 1440)⟩ 2 ["b"] 5).length : ℤ) ≤ 2 ∧
     ((get_unique_wallpapers
         ⟨true, fun _ => true,
          fun k => if k = 0 then some [some "a", some "b", some "a", some "c"] else some [],
          fun _ => (some 3440, some 1440)⟩ 2 ["b"] 5).map fun r => r.image_url).Nodup ∧
     ∀ r ∈ get_unique_wallpapers
         ⟨true, fun _ => true,
          fun k => if k = 0 then some [some "a", some "b", some "a", some "c"] else some [],
          fun _ => (some 3440, some 1440)⟩ 2 ["b"] 5, r.image_url ∉ ["b"]) :=
  ⟨by decide,
   claim1_unique_collection
     ⟨true, fun _ => true,
      fun k => if k = 0 then some [some "a", some "b", some "a", some "c"] else some [],
      fun _ => (some 3440, some 1440)⟩ 2 ["b"] 5 (by decide)⟩

/-! ## C8: collected length is monotone in the shuffle budget -/

theorem processListing_length_grows (dims : String → Option ℤ × Option ℤ) (count : ℕ)
    (skip_urls : List String) :
    ∀ (els : List (Option String)) (c : List Candidate),
      c.length ≤ (processListing dims count skip_urls els c).length := by
  intro els
  induction els with
  | nil => intro c; rw [processListing]
  | cons el rest ih =>
    intro c
    cases el with
    | none =>
      rw [processListing]
      by_cases hc : count ≤ c.length
      · rw [if_pos hc]
      · rw [if_neg hc]; exact ih c
    | some image_url =>
      rw [processListing]
      by_cases hc : count ≤ c.length
      · rw [if_pos hc]
      · rw [if_neg hc]
        by_cases hskip :
            image_url = "" ∨ image_url ∈ skip_urls ∨ ∃ r ∈ c, r.image_url = image_url
        · rw [if_pos hskip]; exact ih c
        · rw [if_neg hskip]
          calc c.length ≤ (c ++ [mkCandidate dims image_url]).length := by simp
            _ ≤ _ := ih _

theorem collectLoop_length_grows (env : GalleryEnv) (count : ℕ) (skip_urls : List String) :
    ∀ (fuel attempts : ℕ) (c : List Candidate),
      c.length ≤ ((collectLoop env count skip_urls attempts fuel c).1).length := by
  intro fuel
  induction fuel with
  | zero => intro a c; rw [collectLoop]
  | succ n ih =>
    intro a c
    rw [collectLoop]
    by_cases hl : c.length < count
    · rw [if_pos hl]
      by_cases hsh : env.shuffleOk a
      · rw [if_pos hsh]
        cases hlst : env.listing a with
        | none => exact le_refl _
        | some els =>
          exact le_trans (processListing_length_grows env.dims count skip_urls els c)
            (ih (a + 1) _)
      · rw [if_neg hsh]
    · rw [if_neg hl]

theorem collectLoop_fuel_mono (env : GalleryEnv) (count : ℕ) (skip_urls : List String) :
    ∀ (fuel₁ fuel₂ : ℕ), fuel₁ ≤ fuel₂ → ∀ (attempts : ℕ) (c : List Candidate),
      ((collectLoop env count skip_urls attempts fuel₁ c).1).length ≤
      ((collectLoop env count skip_urls attempts fuel₂ c).1).length := by
  intro fuel₁
  induction fuel₁ with
  | zero =>
    intro fuel₂ _ a c
    rw [collectLoop]
    exact collectLoop_length_grows env count skip_urls fuel₂ a c
  | succ n ih =>
    intro fuel₂ hf a c
    obtain ⟨m, rfl⟩ : ∃ m, fuel₂ = m + 1 := ⟨fuel₂ - 1, by omega⟩
    rw [collectLoop, collectLoop]
    by_cases hl : c.length < count
    · rw [if_pos hl, if_pos hl]
      by_cases hsh : env.shuffleOk a
      · rw [if_pos hsh, if_pos hsh]
        cases hlst : env.listing a with
        | none => exact le_refl _
        | some els => exact ih m (by omega) (a + 1) _
      · rw [if_neg hsh, if_neg hsh]
    · rw [if_neg hl, if_neg hl]

/-- Claim C8: with the environment (the simulated remote listings and all
other collaborator responses) held fixed, the number of collected
wallpapers is monotonically non-decreasing in `max_shuffles`. -/
theorem claim8_length_monotone (env : GalleryEnv) (count : ℤ) (skip_urls : List String)
    (m₁ m₂ : ℕ) (h : m₁ ≤ m₂) :
    (get_unique_wallpapers env count skip_urls m₁).length ≤
    (get_unique_wallpapers env count skip_urls m₂).length := by
  rw [get_unique_wallpapers, get_unique_wallpapers]
  split_ifs
  all_goals
    first
    | exact Nat.le_refl _
    | exact collectLoop_fuel_mono env count.toNat skip_urls m₁ m₂ h 0 []

/-- Witness for C8: a two-listing environment where one extra shuffle
really collects more (length 1 at budget 1, length 2 at budget 2). -/
theorem claim8_length_monotone_witness :
    1 ≤ 2 ∧
    (get_unique_wallpapers
       ⟨true, fun _ => true,
        fun k => if k = 0 then some [some "a"] else some [some "b"],
        fun _ => (some 1920, some 1080)⟩ 2 [] 1).length ≤
    (get_unique_wallpapers
       ⟨true, fun _ => true,
        fun k => if k = 0 then some [some "a"] else some [some "b"],
        fun _ => (some 1920, some 1080)⟩ 2 [] 2).length :=
  ⟨by decide,
   claim8_length_monotone
     ⟨true, fun _ => true,
      fun k => if k = 0 then some [some "a"] else some [some "b"],
      fun _ => (some 1920, some 1080)⟩ 2 [] 1 2 (by decide)⟩

/-! ## C2 and C5: stitching geometry and failure atomicity -/

theorem pasteLoop_map_some (min_x min_y : ℤ) :
    ∀ (imgs : List (ℤ × ℤ)) (ms : List MonitorInfo) (acc : List PasteOp),
      imgs.length = ms.length →
      pasteLoop min_x min_y (imgs.map some) ms acc =
        (acc ++ List.zipWith
          (fun sz m => ⟨m.width, m.height, decide (sz ≠ (m.width, m.height)),
            m.x - min_x, m.y - min_y⟩) imgs ms, true) := by
  intro imgs
  induction imgs with
  | nil =>
    intro ms acc hlen
    cases ms with
    | nil => simp [pasteLoop]
    | cons m ms' => simp at hlen
  | cons sz rest ih =>
    intro ms acc hlen
    cases ms with
    | nil => simp at hlen
    | cons m ms' =>
      rw [List.map_cons, pasteLoop, ih ms' _ (by simpa using hlen)]
      simp

theorem pasteLoop_mem_none (min_x min_y : ℤ) :
    ∀ (imgs : List (Option (ℤ × ℤ))) (ms : List MonitorInfo) (acc : List PasteOp),
      imgs.length = ms.length → none ∈ imgs →
      (pasteLoop min_x min_y imgs ms acc).2 = false := by
  intro imgs
  induction imgs with
  | nil => intro ms acc _ hmem; simp at hmem
  | cons i rest ih =>
    intro ms acc hlen hmem
    cases ms with
    | nil => simp at hlen
    | cons m ms' =>
      cases i with
      | none => rw [pasteLoop]
      | some sz =>
        rw [pasteLoop]
        exact ih ms' _ (by simpa using hlen) (by simpa using hmem)

/-- Claim C2: for equal-length, non-empty image and monitor lists with
all images readable, the stitcher allocates a canvas of exactly
`(max (m.x + m.width) - min m.x) × (max (m.y + m.height) - min m.y)`
pixels with black background, and pastes each image at
`(m.x - min_x, m.y - min_y)` with the dimensions of its monitor, the
`resized` flag set exactly when the source pixel size differs. -/
theorem claim2_stitch_geometry (imgs : List (ℤ × ℤ)) (monitors : List MonitorInfo)
    (output_path : String) (saveOk : Bool) (mnx mny mxx mxy : ℤ)
    (hlen : imgs.length = monitors.length)
    (hpos : ∀ m ∈ monitors, 0 < m.width ∧ 0 < m.height)
    (hmnx : (monitors.map fun m => m.x).min? = some mnx)
    (hmny : (monitors.map fun m => m.y).min? = some mny)
    (hmxx : (monitors.map fun m => m.x + m.width).max? = some mxx)
    (hmxy : (monitors.map fun m => m.y + m.height).max? = some mxy) :
    (stitch_images_for_monitors (imgs.map some) monitors output_path saveOk).canvas
        = some (mxx - mnx, mxy - mny) ∧
    (stitch_images_for_monitors (imgs.map some) monitors output_path saveOk).background
        = some (0, 0, 0) ∧
    (stitch_images_for_monitors (imgs.map some) monitors output_path saveOk).pastes
        = List.zipWith
            (fun sz m => ⟨m.width, m.height, decide (sz ≠ (m.width, m.height)),
              m.x - mnx, m.y - mny⟩) imgs monitors := by
  cases monitors with
  | nil => simp at hmnx
  | cons m0 ms =>
    cases imgs with
    | nil => simp at hlen
    | cons i0 is =>
      have hx : (ms.map fun m => m.x).foldl min m0.x = mnx := by
        rw [List.map_cons, List.min?_cons'] at hmnx
        simpa using hmnx
      have hy : (ms.map fun m => m.y).foldl min m0.y = mny := by
        rw [List.map_cons, List.min?_cons'] at hmny
        simpa using hmny
      have hxx : (ms.map fun m => m.x + m.width).foldl max (m0.x + m0.width) = mxx := by
        rw [List.map_cons, List.max?_cons'] at hmxx
        simpa using hmxx
      have hyy : (ms.map fun m => m.y + m.height).foldl max (m0.y + m0.height) = mxy := by
        rw [List.map_cons, List.max?_cons'] at hmxy
        simpa using hmxy
      simp only [List.map_cons]
      rw [stitch_images_for_monitors]
      rw [if_neg (by simp; simpa using hlen)]
      rw [show (some i0 :: is.map some) = (i0 :: is).map some from rfl]
      simp only [pasteLoop_map_some _ _ (i0 :: is) (m0 :: ms) [] hlen, hx, hy, hxx, hyy]
      simp

/-- Witness for C2: the two-monitor example of the claim, two full-HD
monitors side by side; the first image already matches, the second is
resized. -/
theorem claim2_stitch_geometry_witness :
    (stitch_images_for_monitors [some (1920, 1080), some (2560, 1080)]
        [⟨0, "DISPLAY1", 1920, 1080, 0, 0, true⟩, ⟨1, "DISPLAY2", 1920, 1080, 1920, 0, false⟩]
        "stitched.jpg" true).canvas = some (3840, 1080) ∧
    (stitch_images_for_monitors [some (1920, 1080), some (2560, 1080)]
        [⟨0, "DISPLAY1", 1920, 1080, 0, 0, true⟩, ⟨1, "DISPLAY2", 1920, 1080, 1920, 0, false⟩]
        "stitched.jpg" true).background = some (0, 0, 0) ∧
    (stitch_images_for_monitors [some (1920, 1080), some (2560, 1080)]
        [⟨0, "DISPLAY1", 1920, 1080, 0, 0, true⟩, ⟨1, "DISPLAY2", 1920, 1080, 1920, 0, false⟩]
        "stitched.jpg" true).pastes =
      [⟨1920, 1080, false, 0, 0⟩, ⟨1920, 1080, true, 1920, 0⟩] := by
  obtain ⟨h1, h2, h3⟩ :=
    claim2_stitch_geometry [(1920, 1080), (2560, 1080)]
      [⟨0, "DISPLAY1", 1920, 1080, 0, 0, true⟩, ⟨1, "DISPLAY2", 1920, 1080, 1920, 0, false⟩]
      "stitched.jpg" true 0 0 3840 1080 (by decide) (by decide) (by decide) (by decide)
      (by decide) (by decide)
  refine ⟨by simpa using h1, by simpa using h2, ?_⟩
  rw [show ([some (1920, 1080), some (2560, 1080)] : List (Option (ℤ × ℤ)))
        = [((1920 : ℤ), (1080 : ℤ)), ((2560 : ℤ), (1080 : ℤ))].map some by decide]
  rw [h3]
  decide

/-- Claim C5: the stitcher is atomic on failure. With mismatched list
lengths it returns the failure outcome without allocating any canvas
(`canvas = none`); and when any single image fails to open, it returns
`None` and never reaches the `save` call, so no output file is written. -/
theorem claim5_stitch_atomic (image_paths : List (Option (ℤ × ℤ)))
    (monitors : List MonitorInfo) (output_path : String) (saveOk : Bool) :
    (image_paths.length ≠ monitors.length →
      stitch_images_for_monitors image_paths monitors output_path saveOk =
        ⟨none, none, none, [], false⟩) ∧
    (image_paths.length = monitors.length → none ∈ image_paths →
      (stitch_images_for_monitors image_paths monitors output_path saveOk).result = none ∧
      (stitch_images_for_monitors image_paths monitors output_path saveOk).saveAttempted
        = false) := by
  constructor
  · intro h
    rw [stitch_images_for_monitors.eq_def, if_pos h]
  · intro hlen hmem
    cases image_paths with
    | nil => simp at hmem
    | cons i is =>
      cases monitors with
      | nil => simp at hlen
      | cons m0 ms =>
        rw [stitch_images_for_monitors]
        rw [if_neg (by simp; simpa using hlen)]
        have hp := pasteLoop_mem_none
          ((ms.map fun m => m.x).foldl min m0.x)
          ((ms.map fun m => m.y).foldl min m0.y)
          (i :: is) (m0 :: ms) [] hlen hmem
        rw [if_neg (by simp [hp])]
        exact ⟨rfl, rfl⟩

/-- Witness for C5: a mismatched call and a call with one unreadable
image. -/
theorem claim5_stitch_atomic_witness :
    stitch_images_for_monitors [some (100, 100)] [] "o.jpg" true =
      ⟨none, none, none, [], false⟩ ∧
    (stitch_images_for_monitors [none] [⟨0, "D1", 1920, 1080, 0, 0, true⟩] "o.jpg" true).result
      = none ∧
    (stitch_images_for_monitors [none] [⟨0, "D1", 1920, 1080, 0, 0, true⟩]
      "o.jpg" true).saveAttempted = false :=
  ⟨(claim5_stitch_atomic [some (100, 100)] [] "o.jpg" true).1 (by decide),
   ((claim5_stitch_atomic [none] [⟨0, "D1", 1920, 1080, 0, 0, true⟩] "o.jpg" true).2
      (by decide) (by decide)).1,
   ((claim5_stitch_atomic [none] [⟨0, "D1", 1920, 1080, 0, 0, true⟩] "o.jpg" true).2
      (by decide) (by decide)).2⟩

/-! ## C6: the crop rectangle stays inside the image -/

theorem pyRound_bounds (q : ℚ) :
    q - 1/2 ≤ (pyRound q : ℚ) ∧ (pyRound q : ℚ) ≤ q + 1/2 := by
  have h1 : (⌊q⌋ : ℚ) ≤ q := Int.floor_le q
  have h2 : q < ⌊q⌋ + 1 := Int.lt_floor_add_one q
  rw [pyRound]
  simp only [ratFloor_eq_floor]
  split_ifs with ha hb hc <;> constructor <;> push_cast <;> linarith

/-- Claim C6: for positive image dimensions and positive aspect
components, whenever `crop_image_to_aspect` computes a crop rectangle, it
lies fully inside the original image:
`0 ≤ left`, `0 ≤ top`, `right ≤ w`, `bottom ≤ h`. -/
theorem claim6_crop_in_bounds (w h aspect_w aspect_h : ℤ)
    (hw : 0 < w) (hh : 0 < h) (haw : 0 < aspect_w) (hah : 0 < aspect_h) :
    ∀ r : CropRect, crop_image_to_aspect w h aspect_w aspect_h = some r →
      0 ≤ r.left ∧ 0 ≤ r.top ∧ r.right ≤ w ∧ r.bottom ≤ h := by
  intro r hr
  have hwq : (0 : ℚ) < (w : ℚ) := by exact_mod_cast hw
  have hhq : (0 : ℚ) < (h : ℚ) := by exact_mod_cast hh
  have htq : (0 : ℚ) < (aspect_w : ℚ) / (aspect_h : ℚ) := by
    apply div_pos <;> exact_mod_cast ‹_›
  rw [crop_image_to_aspect] at hr
  rw [if_neg (by push_neg; exact ⟨haw, hah⟩)] at hr
  simp only [if_pos hh.ne'] at hr
  split_ifs at hr with h0 heps hwide
  · -- too wide: full height, reduced width
    have hlt : (h : ℚ) * ((aspect_w : ℚ) / (aspect_h : ℚ)) < (w : ℚ) := by
      calc (h : ℚ) * ((aspect_w : ℚ) / (aspect_h : ℚ))
          < (h : ℚ) * ((w : ℚ) / (h : ℚ)) := mul_lt_mul_of_pos_left hwide hhq
        _ = (w : ℚ) := by field_simp
    have hpos : (0 : ℚ) < (h : ℚ) * ((aspect_w : ℚ) / (aspect_h : ℚ)) :=
      mul_pos hhq htq
    obtain ⟨hb1, hb2⟩ := pyRound_bounds ((h : ℚ) * ((aspect_w : ℚ) / (aspect_h : ℚ)))
    set nw : ℤ := pyRound ((h : ℚ) * ((aspect_w : ℚ) / (aspect_h : ℚ))) with hnw
    have hnw0 : 0 ≤ nw := by
      have : (-1 : ℚ) < (nw : ℚ) := by linarith
      have : (-1 : ℤ) < nw := by exact_mod_cast this
      omega
    have hnww : nw ≤ w := by
      have : (nw : ℚ) < (w : ℚ) + 1 := by linarith
      have : nw < w + 1 := by exact_mod_cast this
      omega
    obtain rfl : (⟨(w - nw).fdiv 2, 0, (w - nw).fdiv 2 + nw, 0 + h⟩ : CropRect) = r :=
      Option.some.inj hr
    rw [Int.fdiv_eq_ediv _ (by norm_num : (0 : ℤ) ≤ 2)]
    have hd1 : 0 ≤ (w - nw) / 2 := Int.ediv_nonneg (by omega) (by norm_num)
    have hd2 : (w - nw) / 2 ≤ w - nw := Int.ediv_le_self 2 (by omega)
    refine ⟨hd1, le_refl 0, ?_, ?_⟩
    · show (w - nw) / 2 + nw ≤ w
      omega
    · show 0 + h ≤ h
      omega
  · -- too tall: full width, reduced height
    have hclt : (w : ℚ) / (h : ℚ) < (aspect_w : ℚ) / (aspect_h : ℚ) := by
      rcases lt_or_eq_of_le (not_lt.mp hwide) with hlt' | heq
      · exact hlt'
      · exfalso
        apply heps
        rw [heq, sub_self, abs_zero]
        norm_num
    have hlt : (w : ℚ) / ((aspect_w : ℚ) / (aspect_h : ℚ)) < (h : ℚ) := by
      rw [div_lt_iff₀ htq]
      calc (w : ℚ) = (w : ℚ) / (h : ℚ) * (h : ℚ) := by field_simp
        _ < (aspect_w : ℚ) / (aspect_h : ℚ) * (h : ℚ) :=
          mul_lt_mul_of_pos_right hclt hhq
        _ = (h : ℚ) * ((aspect_w : ℚ) / (aspect_h : ℚ)) := by ring
    have hpos : (0 : ℚ) < (w : ℚ) / ((aspect_w : ℚ) / (aspect_h : ℚ)) :=
      div_pos hwq htq
    obtain ⟨hb1, hb2⟩ := pyRound_bounds ((w : ℚ) / ((aspect_w : ℚ) / (aspect_h : ℚ)))
    set nh : ℤ := pyRound ((w : ℚ) / ((aspect_w : ℚ) / (aspect_h : ℚ))) with hnh
    have hnh0 : 0 ≤ nh := by
      have : (-1 : ℚ) < (nh : ℚ) := by linarith
      have : (-1 : ℤ) < nh := by exact_mod_cast this
      omega
    have hnhh : nh ≤ h := by
      have : (nh : ℚ) < (h : ℚ) + 1 := by linarith
      have : nh < h + 1 := by exact_mod_cast this
      omega
    obtain rfl : (⟨0, (h - nh).fdiv 2, 0 + w, (h - nh).fdiv 2 + nh⟩ : CropRect) = r :=
      Option.some.inj hr
    rw [Int.fdiv_eq_ediv _ (by norm_num : (0 : ℤ) ≤ 2)]
    have hd1 : 0 ≤ (h - nh) / 2 := Int.ediv_nonneg (by omega) (by norm_num)
    have hd2 : (h - nh) / 2 ≤ h - nh := Int.ediv_le_self 2 (by omega)
    refine ⟨le_refl 0, hd1, ?_, ?_⟩
    · show 0 + w ≤ w
      omega
    · show (h - nh) / 2 + nh ≤ h
      omega

/-- Witness for C6 at the 2000 × 1000 image cropped to 16:9 from the
spec: rectangle `(111, 0, 1889, 1000)`, inside the image. -/
theorem claim6_crop_in_bounds_witness :
    crop_image_to_aspect 2000 1000 16 9 = some ⟨111, 0, 1889, 1000⟩ ∧
    (0 ≤ (111 : ℤ) ∧ 0 ≤ (0 : ℤ) ∧ (1889 : ℤ) ≤ 2000 ∧ (1000 : ℤ) ≤ 1000) := by
  have h77 : ((16000 : ℚ) / 9).floor = 1777 := by
    rw [ratFloor_eq_floor, Int.floor_eq_iff]
    norm_num
  have heval : crop_image_to_aspect 2000 1000 16 9 = some ⟨111, 0, 1889, 1000⟩ := by
    norm_num [crop_image_to_aspect, pyRound, h77, Int.fdiv_eq_ediv, abs]
  refine ⟨heval, ?_⟩
  exact claim6_crop_in_bounds 2000 1000 16 9 (by norm_num) (by norm_num) (by norm_num)
    (by norm_num) ⟨111, 0, 1889, 1000⟩ heval

/-! ## C9: brightness classification -/

theorem list_sum_of_all_eq : ∀ (l : List ℕ) (c : ℕ), (∀ x ∈ l, x = c) →
    l.sum = l.length * c := by
  intro l c h
  induction l with
  | nil => simp
  | cons a as ih =>
    have ha : a = c := h a (List.mem_cons_self a as)
    have hs : as.sum = as.length * c := ih fun x hx => h x (List.mem_cons_of_mem a hx)
    simp [ha, hs]
    ring

theorem meanBrightness_of_all_eq (l : List ℕ) (c : ℕ) (hne : l ≠ [])
    (h : ∀ x ∈ l, x = c) : meanBrightness l = c := by
  rw [meanBrightness, if_neg (by simpa [List.isEmpty_iff] using hne)]
  rw [list_sum_of_all_eq l c h]
  have hl : (l.length : ℚ) ≠ 0 := by
    simp only [ne_eq, Nat.cast_eq_zero, List.length_eq_zero]
    exact hne
  push_cast
  field_simp

/-- Claim C9: `is_image_too_bright` classifies an image as too bright
exactly when the arithmetic mean of the (sampled) grayscale pixel values
is at least `brightness_threshold`; under the defaults (threshold 200,
sample size 10000) every all-white image of positive size is too bright,
every all-black image is not, and an unreadable image is not (fail-open,
`false`). -/
theorem claim9_brightness (sampler : List ℕ → List ℕ) (hs : SamplerOK 10000 sampler)
    (n : ℕ) (hn : 0 < n) :
    (∀ (th : ℚ) (k : ℤ) (s : List ℕ → List ℕ), is_image_too_bright none th k s = false) ∧
    (∀ (pixels : List ℕ) (th : ℚ) (k : ℤ) (s : List ℕ → List ℕ),
        (is_image_too_bright (some pixels) th k s = true ↔
          th ≤ meanBrightness (samplePixels k s pixels))) ∧
    is_image_too_bright (some (List.replicate n 255)) 200 10000 sampler = true ∧
    is_image_too_bright (some (List.replicate n 0)) 200 10000 sampler = false := by
  have key : ∀ (c : ℕ), meanBrightness (samplePixels 10000 sampler (List.replicate n c)) = c := by
    intro c
    rw [samplePixels]
    by_cases hbig : (10000 : ℤ) < ((List.replicate n c).length : ℤ)
    · rw [if_pos ⟨by norm_num, hbig⟩]
      obtain ⟨hlen, hmem⟩ := hs (List.replicate n c) hbig
      refine meanBrightness_of_all_eq _ c ?_ ?_
      · intro hnil
        rw [hnil] at hlen
        simp at hlen
      · intro x hx
        exact List.eq_of_mem_replicate (hmem x hx)
    · rw [if_neg (by intro hc; exact hbig hc.2)]
      refine meanBrightness_of_all_eq _ c ?_ ?_
      · simp only [ne_eq, List.replicate_eq_nil_iff]
        omega
      · intro x hx
        exact List.eq_of_mem_replicate hx
  refine ⟨fun th k s => rfl, fun pixels th k s => by rw [is_image_too_bright]; simp, ?_, ?_⟩
  · rw [is_image_too_bright, key 255]
    norm_num
  · rw [is_image_too_bright, key 0]
    norm_num

/-- Witness for C9 with the sampler that keeps the first 10000 pixels and
a 3-pixel image. -/
theorem claim9_brightness_witness :
    is_image_too_bright (some (List.replicate 3 255)) 200 10000 (fun l => l.take 10000) = true ∧
    is_image_too_bright (some (List.replicate 3 0)) 200 10000 (fun l => l.take 10000) = false ∧
    is_image_too_bright none 200 10000 (fun l => l.take 10000) = false := by
  have hs : SamplerOK 10000 (fun l => l.take 10000) := by
    intro l hl
    constructor
    · simp only [List.length_take]
      omega
    · intro x hx
      exact List.take_subset 10000 l hx
  obtain ⟨h1, h2, h3, h4⟩ := claim9_brightness (fun l => l.take 10000) hs 3 (by norm_num)
  exact ⟨h3, h4, h1 200 10000 _⟩

end UwwNet
